import Mathlib

/-!
Verification of the domain-mask reverse proxy (gnosticdev/domain-mask).

The development shallowly embeds the middleware pipeline of `src/middleware.ts`
(`normailzeUrl`, `eqHost`, `preMiddleware`, `postMiddleware`, `headersMiddleware`)
and the URL transform `convertToMaskedURL`.  JavaScript strings are modelled as
`String`/`List Char`, the WHATWG `URL` class as a six-field record together with
an executable parser covering the URL shapes the program manipulates
(absolute `scheme://host:port/path?query#hash`, protocol-relative `//host/...`,
root-relative `/path`, and opaque-path schemes such as `data:`), and
exception-throwing operations as `Option`/`Except`.
-/

namespace DomainMask

/-! ## Character-list utilities (models of JS string operations) -/

/-- Model of JS `String.prototype.startsWith` on character lists. -/
def isPrefixCL : List Char → List Char → Bool
  | [], _ => true
  | _ :: _, [] => false
  | a :: as, b :: bs => a == b && isPrefixCL as bs

/-- Model of JS `String.prototype.endsWith` on character lists. -/
def endsWithCL (suf l : List Char) : Bool :=
  isPrefixCL suf.reverse l.reverse

/-- Model of JS `String.prototype.includes` on character lists. -/
def containsCL (p : List Char) : List Char → Bool
  | [] => p.isEmpty
  | c :: rest => isPrefixCL p (c :: rest) || containsCL p rest

/-- Model of JS `String.prototype.includes`. -/
def containsStr (s pat : String) : Bool :=
  containsCL pat.data s.data

/-- Drop a known suffix (used for subdomain-prefix extraction). -/
def stripSuffixCL (suf l : List Char) : List Char :=
  l.take (l.length - suf.length)

/-- Model of JS `String.prototype.replaceAll` with a plain-string pattern:
leftmost-first, non-overlapping replacement.  An empty pattern leaves the
input unchanged. -/
def replaceAllCL (p r : List Char) (l : List Char) : List Char :=
  match l with
  | [] => []
  | c :: rest =>
    if h : p ≠ [] ∧ isPrefixCL p (c :: rest) = true then
      r ++ replaceAllCL p r ((c :: rest).drop p.length)
    else
      c :: replaceAllCL p r rest
termination_by l.length
decreasing_by
  · simp only [List.length_drop, List.length_cons]
    have hp : p.length ≠ 0 := fun h0 => h.1 (List.length_eq_zero.mp h0)
    omega
  · simp

/-- String wrapper for `replaceAllCL`. -/
def replaceAllStr (s p r : String) : String :=
  String.mk (replaceAllCL p.data r.data s.data)

/-! ## URL model -/

/-- Model of the WHATWG `URL` class restricted to the components the program
reads and writes.  `port` is the empty string when no port is present, and
`search`/`hash` carry their leading `?`/`#` when nonempty, as in JS. -/
structure URL where
  scheme : String
  hostname : String
  port : String
  pathname : String
  search : String
  hash : String
deriving DecidableEq, Repr

/-- Model of JS `URL.host`: hostname plus `:port` when a port is present. -/
def URL.host (u : URL) : String :=
  u.hostname ++ (if u.port = "" then "" else ":" ++ u.port)

/-- Model of JS `URL.toString()` (serialization) for the modelled subset. -/
def URL.toString (u : URL) : String :=
  u.scheme ++ "://" ++ u.host ++ u.pathname ++ u.search ++ u.hash

/-- Copy a pathname and search onto a URL
(JS `url.pathname = p; url.search = q`). -/
def URL.withPathSearch (u : URL) (p q : String) : URL :=
  { u with pathname := p, search := q }

/-- Replace the authority (scheme, hostname, port) of a URL. -/
def URL.withAuthority (u : URL) (sc hn pt : String) : URL :=
  { u with scheme := sc, hostname := hn, port := pt }

/-- Split a character list at the first character satisfying `p`, keeping
that character at the head of the second component. -/
def breakAtCL (p : Char → Bool) : List Char → List Char × List Char
  | [] => ([], [])
  | c :: rest =>
    if p c then ([], c :: rest)
    else
      let r := breakAtCL p rest
      (c :: r.1, r.2)

/-- Split the part of a URL after the authority into pathname, search and
hash (the hash is detached first, then the search, as in WHATWG parsing). -/
def parsePSH (l : List Char) : String × String × String :=
  let hb := breakAtCL (· == '#') l
  let ps := breakAtCL (· == '?') hb.1
  (String.mk ps.1, String.mk ps.2, String.mk hb.2)

/-- Parse `host[:port]`; fails on an empty hostname (as `new URL` throws).
Hostnames are lowercased as in WHATWG parsing. -/
def parseHostPort (l : List Char) : Option (String × String) :=
  let hp := breakAtCL (· == ':') l
  if hp.1.isEmpty then none
  else
    match hp.2 with
    | [] => some (String.mk (hp.1.map Char.toLower), "")
    | _ :: rest => some (String.mk (hp.1.map Char.toLower), String.mk rest)

/-- Parse everything after `scheme://`: authority, then path/search/hash.
An empty path serializes as `/`, as in JS. -/
def parseAuthorityRest (scheme : String) (l : List Char) : Option URL :=
  let ar := breakAtCL (fun c => c == '/' || c == '?' || c == '#') l
  match parseHostPort ar.1 with
  | none => none
  | some hp =>
    let psh := parsePSH ar.2
    some { scheme := scheme, hostname := hp.1, port := hp.2,
           pathname := if psh.1 = "" then "/" else psh.1,
           search := psh.2.1, hash := psh.2.2 }

/-- Parse a leading `scheme:`; the scheme is a nonempty run of ASCII letters
terminated by `:`.  Returns the scheme characters and the rest after `:`. -/
def parseScheme (l : List Char) : Option (List Char × List Char) :=
  match l.takeWhile Char.isAlpha, l.dropWhile Char.isAlpha with
  | [], _ => none
  | c :: cs, ':' :: r => some (c :: cs, r)
  | _, _ => none

/-- Model of `new URL(s)` (no base): parses an absolute URL, yielding `none`
where the JS constructor throws.  URLs of the form `scheme://...` get an
authority; other schemes (e.g. `data:`, `mailto:`) keep an opaque path. -/
def parseAbsoluteURL (s : String) : Option URL :=
  match parseScheme s.data with
  | none => none
  | some sr =>
    let scheme := String.mk (sr.1.map Char.toLower)
    match sr.2 with
    | '/' :: '/' :: r => parseAuthorityRest scheme r
    | _ => some { scheme := scheme, hostname := "", port := "",
                  pathname := String.mk sr.2, search := "", hash := "" }

/-- Model of `new URL(s, base)`: absolute strings parse on their own,
protocol-relative `//host/...` inherits the base scheme, root-relative
`/path` inherits the base authority.  Other relative forms are modelled as
resolution failures. -/
def resolveURL (s : String) (base : URL) : Option URL :=
  match parseScheme s.data with
  | some _ => parseAbsoluteURL s
  | none =>
    match s.data with
    | '/' :: '/' :: r => parseAuthorityRest base.scheme r
    | '/' :: r =>
      let psh := parsePSH ('/' :: r)
      some { base with pathname := psh.1, search := psh.2.1, hash := psh.2.2 }
    | _ => none

/-! ## Middleware embedding (src/middleware.ts, src/factory.ts) -/

/-- `eqHost` from src/middleware.ts: compare hostnames ignoring a leading
`www.` (JS `a.replace(/^www\./, '') === b.replace(/^www\./, '')`). -/
def stripWww (s : String) : String :=
  if isPrefixCL "www.".data s.data then String.mk (s.data.drop 4) else s

/-- `eqHost` from src/middleware.ts. -/
def eqHost (a b : String) : Bool :=
  stripWww a == stripWww b

/-- `normailzeUrl` (sic) from src/middleware.ts, string case: prefix
`https://` when the value does not match `/^https?:\/\//`, then parse.
`none` models the `new URL` constructor throwing. -/
def normailzeUrl (url : String) : Option URL :=
  let url2 :=
    if isPrefixCL "http://".data url.data || isPrefixCL "https://".data url.data
    then url else "https://" ++ url
  parseAbsoluteURL url2

/-- The environment bindings read by the middleware (wrangler vars). -/
structure Env where
  ALIAS_DOMAIN : String
  TARGET_DOMAIN : String
deriving DecidableEq, Repr

/-- The per-request variables `preMiddleware` stores on the context. -/
structure PreCtx where
  requestURL : URL
  targetURL : URL
deriving DecidableEq, Repr

/-- `preMiddleware` from src/middleware.ts: normalize `ALIAS_DOMAIN` and
`TARGET_DOMAIN`, reject with `403 Not allowed` when the request hostname
differs from the alias hostname, otherwise store `requestURL` and the
target URL carrying the request's path and search.  `Except.error` models
an early response: `next()` is not called, so no downstream middleware or
handler (and no upstream fetch) runs.  A normalization failure models the
`new URL` throw, surfaced by the factory's `onError` as a 500. -/
def preMiddleware (env : Env) (reqUrl : URL) : Except (Nat × String) PreCtx :=
  match normailzeUrl env.ALIAS_DOMAIN, normailzeUrl env.TARGET_DOMAIN with
  | some aliasDomain, some targetURL =>
    if reqUrl.hostname ≠ aliasDomain.hostname then
      Except.error (403, "Not allowed")
    else
      Except.ok { requestURL := reqUrl,
                  targetURL := targetURL.withPathSearch reqUrl.pathname reqUrl.search }
  | _, _ => Except.error (500, "Woops - something went wrong")

/-- The response headers touched by `postMiddleware`.  `setCookie` models
the multi-valued `Set-Cookie` header (`Headers.getSetCookie`). -/
structure ResHeaders where
  location : Option String
  setCookie : List String
  csp : Option String
  hsts : Option String
deriving DecidableEq, Repr

/-- Step 1 of `postMiddleware` ("Rewrite redirect Location to mask domain"):
the source binds `aliasHostname` to `c.get('targetURL').hostname` — the
TARGET hostname — resolves `Location` against `https://` + that hostname,
and when `eqHost` matches sets the hostname to that same value.  `none`
branches model the swallowed `try/catch`. -/
def locationStep (targetURL : URL) (h : ResHeaders) : ResHeaders :=
  match h.location with
  | none => h
  | some loc =>
    match parseAbsoluteURL ("https://" ++ targetURL.hostname) with
    | none => h
    | some base =>
      match resolveURL loc base with
      | none => h
      | some targetLoc =>
        if eqHost targetLoc.hostname targetURL.hostname then
          { h with location := some (URL.toString { targetLoc with hostname := targetURL.hostname }) }
        else h

/-- Whitespace class of the regex `\s` (ASCII part). -/
def isWSCh (c : Char) : Bool :=
  c == ' ' || c == '\t' || c == '\n' || c == '\r' || c == '\x0b' || c == '\x0c'

/-- Case-insensitive character comparison against a lowercase letter. -/
def lowEq (c d : Char) : Bool :=
  c.toLower == d

/-- Match `[Dd][Oo][Mm][Aa][Ii][Nn]=[^;]+` at the head of the list,
returning the remainder after the (greedy) match. -/
def matchDomainWord : List Char → Option (List Char)
  | c0 :: c1 :: c2 :: c3 :: c4 :: c5 :: '=' :: rest =>
    if lowEq c0 'd' && lowEq c1 'o' && lowEq c2 'm' && lowEq c3 'a' &&
       lowEq c4 'i' && lowEq c5 'n' then
      match rest with
      | [] => none
      | c :: cs =>
        if c = ';' then none
        else some ((c :: cs).dropWhile (fun x => x != ';'))
    else none
  | _ => none

/-- Match the regex `;\s*Domain=[^;]+` (case-insensitive on `Domain`)
at the head of the list, returning the remainder after the match. -/
def afterDomainMatch : List Char → Option (List Char)
  | ';' :: rest => matchDomainWord (rest.dropWhile isWSCh)
  | _ => none

/-- First-occurrence replacement of `;\s*Domain=[^;]+` by
`; Domain=` ++ `t` (JS `replace` with a non-global `/i` regex). -/
def replaceDomainCL (t : List Char) : List Char → List Char
  | [] => []
  | c :: rest =>
    match afterDomainMatch (c :: rest) with
    | some after => "; Domain=".data ++ (t ++ after)
    | none => c :: replaceDomainCL t rest

/-- A serialized `Domain` attribute occurrence inside a cookie string:
`;` followed by whitespace `ws`, the literal `Domain=`, the attribute value
`dv`, and the remainder `post` of the cookie. -/
def domainAttr (ws dv post : List Char) : List Char :=
  ';' :: (ws ++ ('D' :: 'o' :: 'm' :: 'a' :: 'i' :: 'n' :: '=' :: (dv ++ post)))

/-- The per-cookie rewrite of step 2 of `postMiddleware`:
`cki.replace(/;\s*Domain=[^;]+/i, `; Domain=TARGET_DOMAIN`)`. -/
def rewriteCookieDomain (target cki : String) : String :=
  String.mk (replaceDomainCL target.data cki.data)

/-- Step 2 of `postMiddleware` ("Rewrite Set-Cookie Domain"): each cookie of
the multi-valued header is rewritten independently and re-appended in order. -/
def setCookieStep (env : Env) (h : ResHeaders) : ResHeaders :=
  { h with setCookie := h.setCookie.map (rewriteCookieDomain env.TARGET_DOMAIN) }

/-- First half of step 3 of `postMiddleware`: when the CSP header contains the
`TARGET_DOMAIN` literal, `replaceAll` it with itself. -/
def cspStep (env : Env) (h : ResHeaders) : ResHeaders :=
  match h.csp with
  | some csp =>
    if containsStr csp env.TARGET_DOMAIN then
      { h with csp := some (replaceAllStr csp env.TARGET_DOMAIN env.TARGET_DOMAIN) }
    else h
  | none => h

/-- Second half of step 3 of `postMiddleware`: drop `Strict-Transport-Security`. -/
def hstsStep (h : ResHeaders) : ResHeaders :=
  { h with hsts := none }

/-- `postMiddleware` from src/middleware.ts, acting on the response headers
after `next()` returned.  `targetURL` is the context variable stored by
`preMiddleware`. -/
def postMiddleware (env : Env) (targetURL : URL) (h : ResHeaders) : ResHeaders :=
  hstsStep (cspStep env (setCookieStep env (locationStep targetURL h)))

/-- The canonical-`Link` computation of `headersMiddleware` from
src/middleware.ts: when the request `content-type` header includes
`text/html`, build `new URL(c.env.TARGET_DOMAIN)` (throwing — `Except.error`
— when `TARGET_DOMAIN` does not parse, e.g. lacks a scheme), copy the
request's pathname and search onto it, and emit
`<url>; rel="canonical"`; otherwise add no `Link` header (`ok none`). -/
def headersMiddlewareLink (env : Env) (reqUrl : URL) (contentType : Option String) :
    Except Unit (Option String) :=
  match contentType with
  | none => Except.ok none
  | some ct =>
    if containsStr ct "text/html" then
      match parseAbsoluteURL env.TARGET_DOMAIN with
      | none => Except.error ()
      | some maskedURL =>
        Except.ok (some ("<" ++
          URL.toString (maskedURL.withPathSearch reqUrl.pathname reqUrl.search) ++
          ">; rel=\"canonical\""))
    else Except.ok none

/-! ## URL transform (src/transform-url.ts) -/

/-- Modelled from the spec: `convertToMaskedURL` — the file
src/transform-url.ts is absent from the sources (only its unit tests in
src/test/unit/transform-url.test.ts are present).  The definition follows
spec section 4.1 steps 1–5 together with data-model invariant 4
(subdomains of the target map to the same subdomain prefix on the alias),
and is validated below against all ten unit tests of the repository:
1. `data:` URIs are returned unchanged;
2. the input is resolved against `maskedURL` (resolution failure returns
   the input unchanged);
3. non-`http(s)` schemes are returned unchanged;
4. hostnames that neither equal nor are a subdomain of
   `maskedURL.hostname` are returned unchanged;
5. otherwise the URL is rebuilt with `requestURL`'s scheme and port, the
   resolved path, search and hash, and the hostname of `requestURL`
   (with the input's subdomain prefix preserved). -/
def convertToMaskedURL (originalUrl : String) (maskedURL requestURL : URL) : String :=
  if isPrefixCL "data:".data originalUrl.data then originalUrl
  else
    match resolveURL originalUrl maskedURL with
    | none => originalUrl
    | some u =>
      if ¬(u.scheme = "http" ∨ u.scheme = "https") then originalUrl
      else if u.hostname = maskedURL.hostname then
        URL.toString (u.withAuthority requestURL.scheme requestURL.hostname requestURL.port)
      else if endsWithCL ("." ++ maskedURL.hostname).data u.hostname.data then
        URL.toString (u.withAuthority requestURL.scheme
          (String.mk (stripSuffixCL ("." ++ maskedURL.hostname).data u.hostname.data)
            ++ "." ++ requestURL.hostname)
          requestURL.port)
      else originalUrl

/-! ## Concrete configurations used by the repository's tests -/

/-- `new URL('https://httpbin.org')` — the target of the unit tests. -/
def urlHttpbin : URL := ⟨"https", "httpbin.org", "", "/", "", ""⟩

/-- `new URL('https://example.com')` — the alias request URL of the tests. -/
def urlExample : URL := ⟨"https", "example.com", "", "/", "", ""⟩

/-- `new URL('http://localhost:8787')` — the local development request URL. -/
def urlLocalhost : URL := ⟨"http", "localhost", "8787", "/", "", ""⟩

example : parseAbsoluteURL "https://httpbin.org" = some urlHttpbin := rfl
example : parseAbsoluteURL "https://example.com" = some urlExample := rfl
example : parseAbsoluteURL "http://localhost:8787" = some urlLocalhost := rfl

/-! The ten unit tests of src/test/unit/transform-url.test.ts, replayed
against the spec-modelled definition. -/

example : convertToMaskedURL "https://httpbin.org/api/test" urlHttpbin urlExample =
    "https://example.com/api/test" := rfl

example : convertToMaskedURL "/api/test" urlHttpbin urlExample =
    "https://example.com/api/test" := rfl

example : convertToMaskedURL "//httpbin.org/api/test" urlHttpbin urlExample =
    "https://example.com/api/test" := rfl

example : convertToMaskedURL "https://httpbin.org/api/test" urlHttpbin urlLocalhost =
    "http://localhost:8787/api/test" := rfl

example : convertToMaskedURL "https://example.com/api/test" urlHttpbin urlExample =
    "https://example.com/api/test" := rfl

example :
    convertToMaskedURL "data:image/png;base64,iVBORw0KGgoAAAANSUhEUgAAAAEAAAABCAYAAAAfFcSJAAAADUlEQVR42mNkYPhfDwAChwGA60e6kgAAAABJRU5ErkJggg==" urlHttpbin urlExample =
    "data:image/png;base64,iVBORw0KGgoAAAANSUhEUgAAAAEAAAABCAYAAAAfFcSJAAAADUlEQVR42mNkYPhfDwAChwGA60e6kgAAAABJRU5ErkJggg==" := rfl

example : convertToMaskedURL "ftp://httpbin.org/file.txt" urlHttpbin urlExample =
    "ftp://httpbin.org/file.txt" := rfl

example : convertToMaskedURL "not-a-valid-url" urlHttpbin urlExample =
    "not-a-valid-url" := rfl

example : convertToMaskedURL "https://httpbin.org/api/test?param=value#fragment" urlHttpbin urlExample =
    "https://example.com/api/test?param=value#fragment" := rfl

example : convertToMaskedURL "https://api.httpbin.org/test" urlHttpbin urlExample =
    "https://api.example.com/test" := rfl

/-! ## Helper lemmas -/

lemma isPrefixCL_append_drop : ∀ (p l : List Char), isPrefixCL p l = true →
    l = p ++ l.drop p.length := by
  intro p
  induction p with
  | nil => intro l _; simp
  | cons a as ih =>
    intro l hl
    cases l with
    | nil => simp [isPrefixCL] at hl
    | cons b bs =>
      simp only [isPrefixCL, Bool.and_eq_true, beq_iff_eq] at hl
      simpa [hl.1] using ih bs hl.2

lemma isPrefixCL_self_append : ∀ (p x : List Char), isPrefixCL p (p ++ x) = true := by
  intro p x
  induction p with
  | nil => rfl
  | cons a as ih => simpa [isPrefixCL] using ih

lemma dropWhile_append_of_all {p : Char → Bool} {l₁ l₂ : List Char}
    (h : ∀ c ∈ l₁, p c = true) : (l₁ ++ l₂).dropWhile p = l₂.dropWhile p := by
  induction l₁ with
  | nil => simp
  | cons a as ih =>
    have ha : p a = true := h a (by simp)
    simp only [List.cons_append, List.dropWhile_cons, ha, if_true]
    exact ih (fun c hc => h c (by simp [hc]))

lemma replaceAllCL_self (p : List Char) : ∀ l, replaceAllCL p p l = l := by
  have key : ∀ (n : Nat) (l : List Char), l.length ≤ n → replaceAllCL p p l = l := by
    intro n
    induction n with
    | zero =>
      intro l hl
      have : l = [] := List.length_eq_zero.mp (Nat.le_zero.mp hl)
      subst this
      rw [replaceAllCL]
    | succ n ih =>
      intro l hl
      match l with
      | [] => rw [replaceAllCL]
      | c :: rest =>
        rw [replaceAllCL]
        split
        case isTrue h =>
          have hsplit := isPrefixCL_append_drop p (c :: rest) h.2
          have hp1 : 1 ≤ p.length := by
            cases hp : p with
            | nil => exact absurd hp h.1
            | cons a as => simp [hp]
          have hlen : ((c :: rest).drop p.length).length ≤ n := by
            simp only [List.length_drop, List.length_cons]
            simp only [List.length_cons] at hl
            omega
          rw [ih _ hlen]
          exact hsplit.symm
        case isFalse =>
          have hlen : rest.length ≤ n := by
            simp only [List.length_cons] at hl
            omega
          rw [ih rest hlen]
  intro l
  exact key l.length l le_rfl

lemma locationStep_setCookie (tU : URL) (h : ResHeaders) :
    (locationStep tU h).setCookie = h.setCookie := by
  unfold locationStep
  repeat' split
  all_goals rfl

lemma locationStep_csp (tU : URL) (h : ResHeaders) :
    (locationStep tU h).csp = h.csp := by
  unfold locationStep
  repeat' split
  all_goals rfl

lemma setCookieStep_csp (e : Env) (h : ResHeaders) :
    (setCookieStep e h).csp = h.csp := rfl

lemma cspStep_setCookie (e : Env) (h : ResHeaders) :
    (cspStep e h).setCookie = h.setCookie := by
  unfold cspStep
  repeat' split
  all_goals rfl

lemma hstsStep_setCookie (h : ResHeaders) : (hstsStep h).setCookie = h.setCookie := rfl

lemma hstsStep_csp (h : ResHeaders) : (hstsStep h).csp = h.csp := rfl

/-! ## Claim theorems -/

/-- C7: for every response, after `postMiddleware` runs the
`Strict-Transport-Security` header is absent from the outgoing headers,
regardless of whether the origin set it. -/
theorem hsts_always_removed (env : Env) (tU : URL) (h : ResHeaders) :
    (postMiddleware env tU h).hsts = none := by
  simp [postMiddleware, hstsStep]

/-- C5: for every inbound request whose hostname is not the configured
(normalized) `ALIAS_DOMAIN` hostname, `preMiddleware` answers
`403`/`Not allowed` without storing any request context, so no downstream
middleware or handler runs and no upstream fetch is attempted. -/
theorem preMiddleware_rejects_unknown_host (env : Env) (reqUrl : URL) (a t : URL)
    (ha : normailzeUrl env.ALIAS_DOMAIN = some a)
    (ht : normailzeUrl env.TARGET_DOMAIN = some t)
    (hne : reqUrl.hostname ≠ a.hostname) :
    preMiddleware env reqUrl = Except.error (403, "Not allowed") := by
  unfold preMiddleware
  rw [ha, ht]
  simp [hne]

/-- Witness for C5: a request to `localhost` against alias `example.com`. -/
theorem preMiddleware_rejects_unknown_host_witness :
    preMiddleware ⟨"example.com", "https://httpbin.org"⟩ urlLocalhost
      = Except.error (403, "Not allowed") :=
  preMiddleware_rejects_unknown_host ⟨"example.com", "https://httpbin.org"⟩
    urlLocalhost urlExample urlHttpbin rfl rfl (by decide)

/-- C10: `preMiddleware`'s host validation compares hostnames only — a
request whose URL hostname equals the hostname of the normalized
`ALIAS_DOMAIN` is accepted whatever its port and scheme, and every other
hostname is rejected with `403`/`Not allowed`. -/
theorem preMiddleware_hostname_only (env : Env) (reqUrl : URL) (a t : URL)
    (ha : normailzeUrl env.ALIAS_DOMAIN = some a)
    (ht : normailzeUrl env.TARGET_DOMAIN = some t) :
    (reqUrl.hostname = a.hostname →
      preMiddleware env reqUrl =
        Except.ok ⟨reqUrl, t.withPathSearch reqUrl.pathname reqUrl.search⟩)
    ∧ (reqUrl.hostname ≠ a.hostname →
      preMiddleware env reqUrl = Except.error (403, "Not allowed")) := by
  constructor
  · intro heq
    unfold preMiddleware
    rw [ha, ht]
    simp [heq]
  · intro hne
    unfold preMiddleware
    rw [ha, ht]
    simp [hne]

/-- Witness for C10: with `ALIAS_DOMAIN = "localhost"` (normalized to
`https://localhost`), the request `http://localhost:8787/x?q=1` is accepted
even though its scheme is `http` and its port is `8787`. -/
theorem preMiddleware_hostname_only_witness :
    preMiddleware ⟨"localhost", "https://www.origin-site.com"⟩
        ⟨"http", "localhost", "8787", "/x", "?q=1", ""⟩
      = Except.ok ⟨⟨"http", "localhost", "8787", "/x", "?q=1", ""⟩,
                   ⟨"https", "www.origin-site.com", "", "/x", "?q=1", ""⟩⟩ :=
  (preMiddleware_hostname_only ⟨"localhost", "https://www.origin-site.com"⟩
    ⟨"http", "localhost", "8787", "/x", "?q=1", ""⟩
    ⟨"https", "localhost", "", "/", "", ""⟩
    ⟨"https", "www.origin-site.com", "", "/", "", ""⟩ rfl rfl).1 rfl

/-- C1 (code bug): on a response whose `Location` is an absolute URL on the
target host, `postMiddleware` re-emits the header still pointing at the
target hostname, not at the alias hostname: the source binds
`aliasHostname := c.get('targetURL').hostname` (the TARGET host), so the
rewrite `targetLoc.hostname = aliasHostname` is the identity on the
hostname.  Here `ALIAS_DOMAIN = example.com`, `TARGET_DOMAIN = httpbin.org`,
and `Location: https://httpbin.org/y` stays `https://httpbin.org/y`
instead of becoming `https://example.com/y`. -/
theorem locationHeader_keeps_target_host :
    preMiddleware ⟨"example.com", "httpbin.org"⟩ ⟨"https", "example.com", "", "/y", "", ""⟩
      = Except.ok ⟨⟨"https", "example.com", "", "/y", "", ""⟩,
                   ⟨"https", "httpbin.org", "", "/y", "", ""⟩⟩
    ∧ (postMiddleware ⟨"example.com", "httpbin.org"⟩ ⟨"https", "httpbin.org", "", "/y", "", ""⟩
        ⟨some "https://httpbin.org/y", [], none, none⟩).location
      = some "https://httpbin.org/y"
    ∧ some "https://httpbin.org/y" ≠ some ("https://" ++ "example.com" ++ "/y") := by
  refine ⟨rfl, rfl, by decide⟩

/-- C8: when the `Content-Security-Policy` header contains the configured
`TARGET_DOMAIN` literal, `postMiddleware`'s CSP rewrite is the identity —
the header value after processing equals the value before processing
(the source performs `csp.replaceAll(TARGET_DOMAIN, TARGET_DOMAIN)`). -/
theorem csp_rewrite_identity (env : Env) (tU : URL) (h : ResHeaders) (csp : String)
    (hc : h.csp = some csp)
    (hin : containsStr csp env.TARGET_DOMAIN = true) :
    (postMiddleware env tU h).csp = some csp := by
  have h1 : (setCookieStep env (locationStep tU h)).csp = some csp := by
    rw [setCookieStep_csp, locationStep_csp, hc]
  have hid : replaceAllStr csp env.TARGET_DOMAIN env.TARGET_DOMAIN = csp := by
    unfold replaceAllStr
    rw [replaceAllCL_self]
  unfold postMiddleware
  rw [hstsStep_csp]
  unfold cspStep
  rw [h1]
  simp [hin, hid]

/-- Witness for C8: a CSP mentioning the target origin is re-emitted
byte-for-byte. -/
theorem csp_rewrite_identity_witness :
    (postMiddleware ⟨"example.com", "https://httpbin.org"⟩ urlHttpbin
        ⟨none, [], some "default-src https://httpbin.org", none⟩).csp
      = some "default-src https://httpbin.org" :=
  csp_rewrite_identity ⟨"example.com", "https://httpbin.org"⟩ urlHttpbin
    ⟨none, [], some "default-src https://httpbin.org", none⟩
    "default-src https://httpbin.org" rfl (by decide)

/-- C2 (counterexample): the canonical `Link` header built by
`headersMiddleware` uses the authority of `TARGET_DOMAIN`
(`new URL(c.env.TARGET_DOMAIN)`), not the authority of the alias request
URL: with `TARGET_DOMAIN = https://httpbin.org` and request
`https://example.com/page`, the emitted value is
`<https://httpbin.org/page>; rel="canonical"`, which differs from the
claimed `<requestURL-with-original-path>; rel="canonical"`. -/
theorem linkHeader_target_authority_cex :
    headersMiddlewareLink ⟨"example.com", "https://httpbin.org"⟩
        (urlExample.withPathSearch "/page" "") (some "text/html")
      = Except.ok (some "<https://httpbin.org/page>; rel=\"canonical\"")
    ∧ "<https://httpbin.org/page>; rel=\"canonical\""
      ≠ "<" ++ URL.toString (urlExample.withPathSearch "/page" "") ++ ">; rel=\"canonical\"" :=
  ⟨rfl, by decide⟩

/-- C2 (amended): for every request whose content-type includes
`text/html`, `headersMiddleware` sets a `Link` header
`<url>; rel="canonical"` where `url` is the parsed `TARGET_DOMAIN` URL
carrying the request's original path and query; for every request whose
content-type is absent or does not include `text/html`, no `Link` header
is added. -/
theorem linkHeader_canonical (env : Env) (reqUrl : URL) (ct : String) (m : URL)
    (hct : containsStr ct "text/html" = true)
    (hm : parseAbsoluteURL env.TARGET_DOMAIN = some m) :
    headersMiddlewareLink env reqUrl (some ct)
      = Except.ok (some ("<" ++
          URL.toString (m.withPathSearch reqUrl.pathname reqUrl.search) ++
          ">; rel=\"canonical\""))
    ∧ (∀ ct2 : String, containsStr ct2 "text/html" = false →
        headersMiddlewareLink env reqUrl (some ct2) = Except.ok none)
    ∧ headersMiddlewareLink env reqUrl none = Except.ok none := by
  refine ⟨?_, ?_, rfl⟩
  · unfold headersMiddlewareLink
    simp [hct, hm]
  · intro ct2 h2
    unfold headersMiddlewareLink
    simp [h2]

/-- Witness for C2 (amended): an HTML request through the dev request URL. -/
theorem linkHeader_canonical_witness :
    headersMiddlewareLink ⟨"example.com", "https://httpbin.org"⟩ urlLocalhost
        (some "text/html; charset=utf-8")
      = Except.ok (some "<https://httpbin.org/>; rel=\"canonical\"") := by
  have h := (linkHeader_canonical ⟨"example.com", "https://httpbin.org"⟩ urlLocalhost
    "text/html; charset=utf-8" urlHttpbin (by decide) rfl).1
  exact h.trans rfl

/-- C9 (counterexample): with a scheme-less `TARGET_DOMAIN`
(`httpbin.org`), the canonical-`Link` construction of `headersMiddleware`
throws (`new URL('httpbin.org')` has no scheme), while the `https://`-
prefixed configuration emits the header — the pipeline does NOT behave
identically and an operation does throw. -/
theorem targetDomain_schemeless_link_throws_cex :
    headersMiddlewareLink ⟨"example.com", "httpbin.org"⟩
        (urlExample.withPathSearch "/page" "") (some "text/html")
      = Except.error ()
    ∧ headersMiddlewareLink ⟨"example.com", "https://httpbin.org"⟩
        (urlExample.withPathSearch "/page" "") (some "text/html")
      = Except.ok (some "<https://httpbin.org/page>; rel=\"canonical\"") :=
  ⟨rfl, rfl⟩

/-- C9 (amended): a `TARGET_DOMAIN` given without a protocol is normalized
by prefixing `https://` wherever `normailzeUrl` is applied, so
`preMiddleware` behaves identically to the `https://`-prefixed
configuration; but `headersMiddleware`'s canonical-`Link` construction
parses `TARGET_DOMAIN` without normalization and throws on a scheme-less
value whenever the request content-type includes `text/html`. -/
theorem targetDomain_schemeless_normalization (s A : String) (reqUrl : URL) (ct : String)
    (h1 : isPrefixCL "http://".data s.data = false)
    (h2 : isPrefixCL "https://".data s.data = false)
    (h3 : parseScheme s.data = none)
    (hct : containsStr ct "text/html" = true) :
    normailzeUrl s = parseAbsoluteURL ("https://" ++ s)
    ∧ (∀ r : URL, preMiddleware ⟨A, s⟩ r = preMiddleware ⟨A, "https://" ++ s⟩ r)
    ∧ headersMiddlewareLink ⟨A, s⟩ reqUrl (some ct) = Except.error () := by
  have hn : normailzeUrl s = parseAbsoluteURL ("https://" ++ s) := by
    unfold normailzeUrl
    simp [h1, h2]
  have hpfx : isPrefixCL "https://".data ("https://" ++ s).data = true := by
    rw [String.data_append]
    exact isPrefixCL_self_append _ _
  have hn2 : normailzeUrl ("https://" ++ s) = parseAbsoluteURL ("https://" ++ s) := by
    unfold normailzeUrl
    rw [hpfx]
    simp
  refine ⟨hn, ?_, ?_⟩
  · intro r
    unfold preMiddleware
    rw [show (Env.mk A s).TARGET_DOMAIN = s from rfl,
        show (Env.mk A ("https://" ++ s)).TARGET_DOMAIN = "https://" ++ s from rfl,
        hn, hn2]
  · have hp : parseAbsoluteURL s = none := by
      unfold parseAbsoluteURL
      rw [h3]
    unfold headersMiddlewareLink
    simp [hct, hp]

/-- Witness for C9 (amended): `TARGET_DOMAIN = httpbin.org`. -/
theorem targetDomain_schemeless_normalization_witness :
    normailzeUrl "httpbin.org" = parseAbsoluteURL ("https://" ++ "httpbin.org")
    ∧ preMiddleware ⟨"example.com", "httpbin.org"⟩ urlExample
      = preMiddleware ⟨"example.com", "https://" ++ "httpbin.org"⟩ urlExample
    ∧ headersMiddlewareLink ⟨"example.com", "httpbin.org"⟩ urlExample (some "text/html")
      = Except.error () := by
  have h := targetDomain_schemeless_normalization "httpbin.org" "example.com"
    urlExample "text/html" (by decide) (by decide) rfl (by decide)
  exact ⟨h.1, h.2.1 urlExample, h.2.2⟩

/-- C3 (counterexample): for an absolute URL on a subdomain of the target,
the rewritten URL's hostname is NOT exactly `requestURL`'s — the subdomain
prefix is preserved (`api.httpbin.org` becomes `api.example.com`, not
`example.com`), exactly as the repository's own subdomain unit test
expects. -/
theorem convertToMaskedURL_subdomain_cex :
    convertToMaskedURL "https://api.httpbin.org/test" urlHttpbin urlExample
      = "https://api.example.com/test"
    ∧ (parseAbsoluteURL
        (convertToMaskedURL "https://api.httpbin.org/test" urlHttpbin urlExample)).map
          URL.hostname
      = some "api.example.com"
    ∧ some "api.example.com" ≠ some urlExample.hostname :=
  ⟨rfl, rfl, by decide⟩

/-- C3 (amended): for every absolute URL string that resolves with an
`http(s)` scheme and a hostname equal to, or a subdomain of, the target's
hostname, `convertToMaskedURL` returns the URL rebuilt from the resolved
path, query and fragment verbatim, with scheme and port taken from
`requestURL`, and with hostname `requestURL.hostname` when the hostnames
are equal, or the input's subdomain prefix attached to
`requestURL.hostname` when it is a proper subdomain. -/
theorem convertToMaskedURL_target_rewrite (s : String) (m r u : URL)
    (hd : isPrefixCL "data:".data s.data = false)
    (hu : resolveURL s m = some u)
    (hs : u.scheme = "http" ∨ u.scheme = "https")
    (hh : u.hostname = m.hostname
        ∨ endsWithCL ("." ++ m.hostname).data u.hostname.data = true) :
    convertToMaskedURL s m r =
      URL.toString (u.withAuthority r.scheme
        (if u.hostname = m.hostname then r.hostname
         else String.mk (stripSuffixCL ("." ++ m.hostname).data u.hostname.data)
              ++ "." ++ r.hostname)
        r.port) := by
  unfold convertToMaskedURL
  rw [hd, hu]
  by_cases hcase : u.hostname = m.hostname
  · simp [hs, hcase]
  · rcases hh with h1 | h2
    · exact absurd h1 hcase
    · have h2n : endsWithCL ('.' :: m.hostname.data) u.hostname.data = true := by
        simpa using h2
      simp [hs, hcase, h2n]

/-- Witness for C3 (amended): an absolute target URL with query and
fragment, rewritten onto the dev request URL `http://localhost:8787`. -/
theorem convertToMaskedURL_target_rewrite_witness :
    convertToMaskedURL "https://httpbin.org/a/b?x=1#f" urlHttpbin urlLocalhost
      = "http://localhost:8787/a/b?x=1#f" := by
  have h := convertToMaskedURL_target_rewrite "https://httpbin.org/a/b?x=1#f"
    urlHttpbin urlLocalhost ⟨"https", "httpbin.org", "", "/a/b", "?x=1", "#f"⟩
    (by decide) rfl (Or.inr rfl) (Or.inl rfl)
  exact h.trans rfl

/-- C4: every input string not referencing the target domain — `data:`
URIs, non-`http(s)` schemes, URLs on unrelated hosts, and strings whose
resolution fails — is returned unchanged by `convertToMaskedURL` (which is
a total function: resolution failure is absorbed, never propagated). -/
theorem convertToMaskedURL_pass_through (s : String) (m r : URL)
    (h : isPrefixCL "data:".data s.data = true
       ∨ resolveURL s m = none
       ∨ (∃ u, resolveURL s m = some u ∧ ¬(u.scheme = "http" ∨ u.scheme = "https"))
       ∨ (∃ u, resolveURL s m = some u ∧ u.hostname ≠ m.hostname
            ∧ endsWithCL ("." ++ m.hostname).data u.hostname.data = false)) :
    convertToMaskedURL s m r = s := by
  unfold convertToMaskedURL
  rcases h with h1 | h2 | ⟨u, hu, hns⟩ | ⟨u, hu, hne, hend⟩
  · simp [h1]
  · by_cases hd : isPrefixCL "data:".data s.data = true
    · simp [hd]
    · simp [hd, h2]
  · by_cases hd : isPrefixCL "data:".data s.data = true
    · simp [hd]
    · simp [hd, hu, hns]
  · by_cases hd : isPrefixCL "data:".data s.data = true
    · simp [hd]
    · by_cases hsch : u.scheme = "http" ∨ u.scheme = "https"
      · have hendn : endsWithCL ('.' :: m.hostname.data) u.hostname.data = false := by
          simpa using hend
        simp [hd, hu, hsch, hne, hendn]
      · simp [hd, hu, hsch]

/-- Witness for C4: the four pass-through families at concrete inputs —
a `data:` URI, a malformed string, an `ftp:` URL, and an unrelated host. -/
theorem convertToMaskedURL_pass_through_witness :
    convertToMaskedURL "data:text/plain,hello" urlHttpbin urlExample
      = "data:text/plain,hello"
    ∧ convertToMaskedURL "not-a-valid-url" urlHttpbin urlExample = "not-a-valid-url"
    ∧ convertToMaskedURL "ftp://httpbin.org/file.txt" urlHttpbin urlExample
      = "ftp://httpbin.org/file.txt"
    ∧ convertToMaskedURL "https://example.org/x" urlHttpbin urlExample
      = "https://example.org/x" := by
  refine ⟨?_, ?_, ?_, ?_⟩
  · exact convertToMaskedURL_pass_through _ _ _ (Or.inl (by decide))
  · exact convertToMaskedURL_pass_through _ _ _ (Or.inr (Or.inl rfl))
  · exact convertToMaskedURL_pass_through _ _ _
      (Or.inr (Or.inr (Or.inl ⟨⟨"ftp", "httpbin.org", "", "/file.txt", "", ""⟩, rfl, by decide⟩)))
  · exact convertToMaskedURL_pass_through _ _ _
      (Or.inr (Or.inr (Or.inr ⟨⟨"https", "example.org", "", "/x", "", ""⟩, rfl, by decide, rfl⟩)))

lemma dropWhile_ne_semi (dv post : List Char) (hdv2 : ∀ c ∈ dv, c ≠ ';')
    (hpost : post = [] ∨ post.head? = some ';') :
    (dv ++ post).dropWhile (fun x => x != ';') = post := by
  induction dv with
  | nil =>
    rcases hpost with hp | hp
    · subst hp; rfl
    · cases post with
      | nil => rfl
      | cons p0 ptl =>
        have : p0 = ';' := by simpa using hp
        subst this
        simp [List.dropWhile_cons]
  | cons d dtl ih =>
    have hd : (d != ';') = true := by simp [hdv2 d (by simp)]
    simp [List.dropWhile_cons, hd, ih (fun c hc => hdv2 c (by simp [hc]))]

lemma matchDomainWord_canon (dv post : List Char)
    (hdv1 : dv ≠ []) (hdv2 : ∀ c ∈ dv, c ≠ ';')
    (hpost : post = [] ∨ post.head? = some ';') :
    matchDomainWord ('D' :: 'o' :: 'm' :: 'a' :: 'i' :: 'n' :: '=' :: (dv ++ post))
      = some post := by
  cases dv with
  | nil => exact absurd rfl hdv1
  | cons d dtl =>
    have hd : d ≠ ';' := hdv2 d (by simp)
    simp only [matchDomainWord, List.cons_append]
    rw [if_pos (by decide), if_neg hd]
    congr 1
    rw [← List.cons_append]
    exact dropWhile_ne_semi (d :: dtl) post hdv2 hpost

lemma afterDomainMatch_canon (ws dv post : List Char)
    (hws : ∀ c ∈ ws, isWSCh c = true)
    (hdv1 : dv ≠ []) (hdv2 : ∀ c ∈ dv, c ≠ ';')
    (hpost : post = [] ∨ post.head? = some ';') :
    afterDomainMatch (domainAttr ws dv post) = some post := by
  show afterDomainMatch
    (';' :: (ws ++ ('D' :: 'o' :: 'm' :: 'a' :: 'i' :: 'n' :: '=' :: (dv ++ post))))
    = some post
  simp only [afterDomainMatch]
  rw [dropWhile_append_of_all hws]
  rw [List.dropWhile_cons_of_neg (by decide)]
  exact matchDomainWord_canon dv post hdv1 hdv2 hpost

lemma replaceDomainCL_canon (t pre ws dv post : List Char)
    (hws : ∀ c ∈ ws, isWSCh c = true)
    (hdv1 : dv ≠ []) (hdv2 : ∀ c ∈ dv, c ≠ ';')
    (hpost : post = [] ∨ post.head? = some ';')
    (hpre : ∀ i, i < pre.length →
      afterDomainMatch (pre.drop i ++ domainAttr ws dv post) = none) :
    replaceDomainCL t (pre ++ domainAttr ws dv post)
      = pre ++ ("; Domain=".data ++ (t ++ post)) := by
  induction pre with
  | nil =>
    simp only [List.nil_append]
    have hcanon := afterDomainMatch_canon ws dv post hws hdv1 hdv2 hpost
    show replaceDomainCL t
      (';' :: (ws ++ ('D' :: 'o' :: 'm' :: 'a' :: 'i' :: 'n' :: '=' :: (dv ++ post))))
      = "; Domain=".data ++ (t ++ post)
    unfold domainAttr at hcanon
    simp only [replaceDomainCL, hcanon]
  | cons c pr ih =>
    have h0 : afterDomainMatch (c :: (pr ++ domainAttr ws dv post)) = none := by
      have := hpre 0 (by simp)
      simpa using this
    simp only [List.cons_append, replaceDomainCL, List.append_eq, h0]
    have ih' := ih (fun i hi => by
      have := hpre (i + 1) (by simpa using hi)
      simpa [List.drop_succ_cons] using this)
    rw [ih']
    rfl

/-- C6: `postMiddleware` processes each `Set-Cookie` value independently
(the multi-valued header is mapped cookie-by-cookie, preserving count and
order), and in each cookie the `Domain=<anything>` attribute is replaced
by `Domain=<TARGET_DOMAIN>` while the rest of the cookie before and after
the attribute is kept unchanged (the `;`-plus-whitespace separator before
`Domain` is normalized to `; `). -/
theorem setCookie_domain_rewrite (env : Env) (tU : URL) (h : ResHeaders)
    (t : String) (pre ws dv post : List Char)
    (hws : ∀ c ∈ ws, isWSCh c = true)
    (hdv1 : dv ≠ []) (hdv2 : ∀ c ∈ dv, c ≠ ';')
    (hpost : post = [] ∨ post.head? = some ';')
    (hpre : ∀ i, i < pre.length →
      afterDomainMatch (pre.drop i ++ domainAttr ws dv post) = none) :
    (postMiddleware env tU h).setCookie
      = h.setCookie.map (rewriteCookieDomain env.TARGET_DOMAIN)
    ∧ rewriteCookieDomain t (String.mk (pre ++ domainAttr ws dv post))
      = String.mk (pre ++ ("; Domain=".data ++ (t.data ++ post))) := by
  constructor
  · unfold postMiddleware
    rw [hstsStep_setCookie, cspStep_setCookie]
    unfold setCookieStep
    simp [locationStep_setCookie]
  · unfold rewriteCookieDomain
    have hdata : (String.mk (pre ++ domainAttr ws dv post)).data
        = pre ++ domainAttr ws dv post := rfl
    rw [hdata, replaceDomainCL_canon t.data pre ws dv post hws hdv1 hdv2 hpost hpre]

/-- Witness for C6: a realistic session cookie whose `Domain` attribute is
swapped for the configured target domain, other attributes untouched. -/
theorem setCookie_domain_rewrite_witness :
    (postMiddleware ⟨"example.com", "httpbin.org"⟩ urlHttpbin
        ⟨none, ["sess=abc; Path=/; Domain=x.com; Secure"], none, none⟩).setCookie
      = ["sess=abc; Path=/; Domain=httpbin.org; Secure"]
    ∧ rewriteCookieDomain "httpbin.org" "sess=abc; Path=/; Domain=x.com; Secure"
      = "sess=abc; Path=/; Domain=httpbin.org; Secure" := by
  have H := setCookie_domain_rewrite ⟨"example.com", "httpbin.org"⟩ urlHttpbin
    ⟨none, ["sess=abc; Path=/; Domain=x.com; Secure"], none, none⟩
    "httpbin.org" "sess=abc; Path=/".data [' '] "x.com".data "; Secure".data
    (by decide) (by decide) (by decide) (by decide) (by decide)
  exact ⟨H.1.trans (by decide), H.2.trans (by decide)⟩

end DomainMask
